import Mathlib

set_option autoImplicit false

/-!
Shallow embedding of `src/query_api.py`, a one-shot reporting script that
queries the GitHub code-search API for usage counts of sklearn and base-R
dataset loaders, collects (dataset, total_count) rows, writes them to CSV
and plots them.

The embedding models each HTTP interaction as a `ReqOutcome` supplied by a
simulated environment (one outcome per dataset for the sklearn routine,
one outcome per attempt index per dataset for the R routine, matching the
retry loop).  Each routine returns its result table together with a trace
of observable events (HTTP GETs, sleeps, log prints, file writes), so that
request/sleep counting properties can be stated directly.
-/

/-- Observable events of a run: HTTP requests (tagged with the dataset and
the un-encoded search query string), sleeps, the various `print` calls, and
file writes. -/
inductive Event where
  | httpGet (dataset : String) (q : String)
  | sleep (secs : Nat)
  | logCount (dataset : String) (count : Nat)
  | logHttpFailure (dataset : String) (status : Nat)
  | logRateLimited (dataset : String)
  | logReqError (dataset : String)
  | logPermanentFailure (dataset : String)
  | logTokenRetrieved
  | logMissingToken
  | writeFile (path : String)
  deriving Repr, DecidableEq

/-- The JSON body of a response: either not valid JSON (so `response.json()`
raises), or a JSON object whose `total_count` field may be absent
(`data.get("total_count", 0)` then defaults to 0). -/
inductive JsonBody where
  | malformed
  | fields (totalCount : Option Nat)
  deriving Repr, DecidableEq

/-- Outcome of one `requests.get` call: an HTTP response with a status code
and a body, or a transport-level `RequestException` raised by the call
itself. -/
inductive ReqOutcome where
  | resp (status : Nat) (body : JsonBody)
  | netErr
  deriving Repr, DecidableEq

/-- The `requests` library's `Response.ok`: false exactly for status codes
400..599 (those make `raise_for_status` raise), true otherwise. -/
def statusOk (status : Nat) : Bool :=
  if 400 ≤ status ∧ status < 600 then false else true

/-- Query string built for a sklearn dataset (line 99 of the source). -/
def sklearnQuery (dataset : String) : String :=
  "sklearn.datasets " ++ dataset ++ " extension:py"

/-- Query string built for an R dataset (line 163 of the source). -/
def rQuery (dataset : String) : String :=
  "data(" ++ dataset ++ ") extension:r"

/-- The hard-coded sklearn dataset list (lines 84-91 of the source). -/
def sklearnDatasets : List String :=
  ["load_iris", "load_diabetes", "load_digits", "load_linnerud",
   "load_wine", "load_breast_cancer"]

/-- The pre-query filter of the R routine (line 159): skip any dataset name
containing a space or a period. -/
def containsSpaceOrDot (s : String) : Bool :=
  s.data.any (fun c => c == ' ' || c == '.')

/-- Body of the sklearn routine's loop (lines 97-128).  For each dataset one
GET is issued; a non-ok status is logged and the dataset skipped; an ok
status has its JSON parsed and `total_count` recorded.  A transport error or
a malformed body raises an exception that is not caught, aborting the whole
routine: the first component is then `none` and the trace stops there. -/
def processSklearn (env : String → ReqOutcome) :
    List String → Option (List (String × Nat)) × List Event
  | [] => (some [], [])
  | dataset :: rest =>
    match env dataset with
    | .netErr => (none, [.httpGet dataset (sklearnQuery dataset)])
    | .resp status body =>
      if statusOk status then
        match body with
        | .malformed => (none, [.httpGet dataset (sklearnQuery dataset)])
        | .fields tc =>
          let r := processSklearn env rest
          (r.1.map (fun t => (dataset, tc.getD 0) :: t),
           .httpGet dataset (sklearnQuery dataset) ::
             .logCount dataset (tc.getD 0) :: r.2)
      else
        let r := processSklearn env rest
        (r.1, .httpGet dataset (sklearnQuery dataset) ::
          .logHttpFailure dataset status :: r.2)

/-- The whole `query_sklearn_datasets` routine (lines 75-136): run the loop
over the fixed list and, if it completes, write the CSV. -/
def query_sklearn_datasets (env : String → ReqOutcome) :
    Option (List (String × Nat)) × List Event :=
  match processSklearn env sklearnDatasets with
  | (some t, tr) => (some t, tr ++ [.writeFile "sklearn_datasets_counts.csv"])
  | (none, tr) => (none, tr)

/-- The retry cap of the R routine (line 169). -/
def max_attempts : Nat := 10

/-- The retry loop of the R routine (lines 173-215), for one dataset.  Each
iteration issues one GET; only the 403 branch continues the loop (after the
rate-limit print and a 60 s sleep), incrementing `attempt`, so `attempt`
also numbers the requests and indexes the simulated environment.  An ok
response records `total_count` (a malformed body raises a
`JSONDecodeError`, caught as a `RequestException`: print and break); any
other non-403 status hits `raise_for_status`, equally caught: print and
break.  The loop runs while `attempt < max_attempts`; since `attempt`
strictly increases across iterations, a fuel of `max_attempts` steps is
exact, and the fuel argument only makes the recursion structural. -/
def retryLoopAux (dataset : String) (env : Nat → ReqOutcome) :
    Nat → Nat → Option Nat × List Event
  | 0, _ => (none, [])
  | fuel + 1, attempt =>
    if attempt < max_attempts then
      match env attempt with
      | .netErr => (none, [.httpGet dataset (rQuery dataset),
                           .logReqError dataset])
      | .resp status body =>
        if statusOk status then
          match body with
          | .malformed => (none, [.httpGet dataset (rQuery dataset),
                                  .logReqError dataset])
          | .fields tc =>
            (some (tc.getD 0),
             [.httpGet dataset (rQuery dataset),
              .logCount dataset (tc.getD 0)])
        else if status == 403 then
          let r := retryLoopAux dataset env fuel (attempt + 1)
          (r.1, .httpGet dataset (rQuery dataset) ::
            .logRateLimited dataset :: .sleep 60 :: r.2)
        else
          (none, [.httpGet dataset (rQuery dataset), .logReqError dataset])
    else (none, [])

/-- The retry loop started at attempt 0 (lines 169-171). -/
def retryLoop (dataset : String) (env : Nat → ReqOutcome) :
    Option Nat × List Event :=
  retryLoopAux dataset env max_attempts 0

/-- Body of the R routine's outer loop (lines 157-221): filter out names
with a space or period, run the retry loop on the rest, record the count on
success, and print a permanent-failure message whenever the loop ended
without success (exhaustion or break). -/
def processR (envOf : String → Nat → ReqOutcome) :
    List String → List (String × Nat) × List Event
  | [] => ([], [])
  | dataset :: rest =>
    if containsSpaceOrDot dataset then processR envOf rest
    else
      let r := retryLoop dataset (envOf dataset)
      let k := processR envOf rest
      match r.1 with
      | some c => ((dataset, c) :: k.1, r.2 ++ k.2)
      | none => (k.1, r.2 ++ (.logPermanentFailure dataset :: k.2))

/-- The whole `query_r_datasets` routine (lines 139-229) on a given input
list (read from `r_datasets_list.json` in the source): run the outer loop
and write the CSV (the routine never raises, so the write always runs). -/
def query_r_datasets (envOf : String → Nat → ReqOutcome)
    (datasets_list : List String) : List (String × Nat) × List Event :=
  let r := processR envOf datasets_list
  (r.1, r.2 ++ [.writeFile "r_datasets_counts.csv"])

/-- The `__main__` block (lines 232-254): with no token, print the error and
do nothing else; with a token, print the retrieved message, run the sklearn
routine (whose uncaught exception would kill the process before the R
routine), then the R routine, then save the plot. -/
def mainEvents (token : Option String) (envA : String → ReqOutcome)
    (envB : String → Nat → ReqOutcome) (datasets_list : List String) :
    List Event :=
  match token with
  | none => [.logMissingToken]
  | some _ =>
    match query_sklearn_datasets envA with
    | (none, tr) => .logTokenRetrieved :: tr
    | (some _, tr) =>
      .logTokenRetrieved ::
        (tr ++ (query_r_datasets envB datasets_list).2 ++
          [.writeFile "plot.png"])

/-- Recognizer for HTTP request events. -/
def isHttpGet : Event → Bool
  | .httpGet _ _ => true
  | _ => false

/-- Recognizer for sleep events. -/
def isSleep : Event → Bool
  | .sleep _ => true
  | _ => false

/-- Recognizer for HTTP request events for a particular dataset. -/
def isRequestFor (dataset : String) : Event → Bool
  | .httpGet d _ => d == dataset
  | _ => false

/-- Number of HTTP requests in a trace. -/
def countRequests (tr : List Event) : Nat := tr.countP isHttpGet

/-- Number of sleeps in a trace. -/
def countSleeps (tr : List Event) : Nat := tr.countP isSleep

/-- The row the sklearn routine produces for one dataset, if any: a pair
(dataset, total_count-or-0) exactly when the response is ok with a parsed
JSON body. -/
def rowOfA (env : String → ReqOutcome) (dataset : String) :
    Option (String × Nat) :=
  match env dataset with
  | .resp status (.fields tc) =>
    if statusOk status then some (dataset, tc.getD 0) else none
  | _ => none

/-- The row the R routine produces for one dataset, if any: nothing when the
name is filtered out, otherwise the retry loop's successful count. -/
def rowOfB (envOf : String → Nat → ReqOutcome) (dataset : String) :
    Option (String × Nat) :=
  if containsSpaceOrDot dataset then none
  else (retryLoop dataset (envOf dataset)).1.map (fun c => (dataset, c))

/-- A dataset's query ultimately succeeds in the sklearn routine. -/
def succeedsA (env : String → ReqOutcome) (dataset : String) : Bool :=
  (rowOfA env dataset).isSome

/-- A dataset's query ultimately succeeds in the R routine (a filtered-out
name never runs a query, hence never succeeds). -/
def succeedsB (envOf : String → Nat → ReqOutcome) (dataset : String) : Bool :=
  (rowOfB envOf dataset).isSome

/-- An outcome that cannot abort the sklearn routine: an HTTP response
whose body parses whenever the status is ok (non-ok responses never have
their body parsed). -/
def benignA : ReqOutcome → Bool
  | .netErr => false
  | .resp status body =>
    if statusOk status then
      match body with
      | .malformed => false
      | .fields _ => true
    else true

/-- A rate-limited (HTTP 403) outcome. -/
def is403 : ReqOutcome → Bool
  | .resp status _ => status == 403
  | .netErr => false

/-- The trace left by `k` consecutive rate-limited attempts of the retry
loop: request, rate-limit print, 60 s sleep, repeated. -/
def rateLimitedTrace (dataset : String) : Nat → List Event
  | 0 => []
  | k + 1 =>
    .httpGet dataset (rQuery dataset) :: .logRateLimited dataset ::
      .sleep 60 :: rateLimitedTrace dataset k

/-- Modelled from the spec: the character of one decimal digit (the CSV
persistence layer is pandas `to_csv`/`read_csv`, outside `src/`). -/
def digitChar (d : Nat) : Char := Char.ofNat (48 + d)

/-- Modelled from the spec: decimal digit value of a character, if any. -/
def charDigit (c : Char) : Option Nat :=
  if 48 ≤ c.toNat ∧ c.toNat ≤ 57 then some (c.toNat - 48) else none

/-- Modelled from the spec: decimal rendering of a count, as pandas writes
an integer column. -/
def natDigits (n : Nat) : List Char :=
  if _h : n < 10 then [digitChar n]
  else natDigits (n / 10) ++ [digitChar (n % 10)]
termination_by n
decreasing_by exact Nat.div_lt_self (by omega) (by decide)

/-- Modelled from the spec: a CSV field needs quoting when it contains a
separator, a quote or a line break (pandas QUOTE_MINIMAL). -/
def csvNeedsQuoting (s : List Char) : Bool :=
  s.any (fun c => c == ',' || c == '"' || c == '\n' || c == '\r')

/-- Modelled from the spec: double each quote inside a quoted CSV field. -/
def csvEscape : List Char → List Char
  | [] => []
  | c :: rest =>
    if c == '"' then '"' :: '"' :: csvEscape rest else c :: csvEscape rest

/-- Modelled from the spec: render a CSV field with minimal quoting. -/
def csvField (s : List Char) : List Char :=
  if csvNeedsQuoting s then '"' :: (csvEscape s ++ ['"']) else s

/-- Modelled from the spec: the header row "dataset,total_count" both
routines write (lines 131 and 224 name the two columns). -/
def csvHeader : List Char := "dataset,total_count\n".data

/-- Modelled from the spec: one CSV row of a ResultTable, name field then
the count, newline-terminated (`to_csv(..., index=False)`). -/
def writeCsvRow (r : String × Nat) : List Char :=
  csvField r.1.data ++ ',' :: (natDigits r.2 ++ ['\n'])

/-- Modelled from the spec: the whole CSV file of a ResultTable. -/
def writeCsvFile (t : List (String × Nat)) : List Char :=
  csvHeader ++ (t.map writeCsvRow).flatten

/-- Modelled from the spec: scan a quoted CSV field after its opening
quote; a doubled quote is a literal quote, a single one ends the field. -/
def csvScanQuoted : List Char → Option (List Char × List Char)
  | [] => none
  | c :: rest =>
    if c == '"' then
      match rest with
      | '"' :: rest2 => (csvScanQuoted rest2).map (fun p => ('"' :: p.1, p.2))
      | _ => some ([], rest)
    else (csvScanQuoted rest).map (fun p => (c :: p.1, p.2))

/-- Modelled from the spec: scan an unquoted CSV field, up to the
separator. -/
def csvScanUnquoted : List Char → List Char × List Char
  | [] => ([], [])
  | c :: rest =>
    if c == ',' then ([], c :: rest)
    else
      let p := csvScanUnquoted rest
      (c :: p.1, p.2)

/-- Modelled from the spec: read one CSV field, quoted if it starts with a
quote, unquoted otherwise. -/
def csvReadField : List Char → Option (List Char × List Char)
  | [] => some ([], [])
  | c :: rest =>
    if c == '"' then csvScanQuoted rest
    else some (csvScanUnquoted (c :: rest))

/-- Modelled from the spec: scan a maximal run of decimal digits. -/
def csvScanDigits : List Char → List Char × List Char
  | [] => ([], [])
  | c :: rest =>
    if (charDigit c).isSome then
      let p := csvScanDigits rest
      (c :: p.1, p.2)
    else ([], c :: rest)

/-- Modelled from the spec: numeric value of a digit run, left to right. -/
def digitsVal : List Char → Nat → Nat
  | [], acc => acc
  | c :: rest, acc => digitsVal rest (acc * 10 + (charDigit c).getD 0)

/-- Modelled from the spec: read the integer count field. -/
def csvReadNat (cs : List Char) : Option (Nat × List Char) :=
  let p := csvScanDigits cs
  if p.1.isEmpty then none else some (digitsVal p.1 0, p.2)

/-- Modelled from the spec: read one CSV row — name field, separator,
count, then a newline or the end of the file. -/
def csvReadRow (cs : List Char) : Option ((String × Nat) × List Char) :=
  match csvReadField cs with
  | none => none
  | some (name, rest) =>
    match rest with
    | ',' :: rest2 =>
      match csvReadNat rest2 with
      | none => none
      | some (n, rest3) =>
        match rest3 with
        | [] => some ((String.mk name, n), [])
        | '\n' :: rest4 => some ((String.mk name, n), rest4)
        | _ => none
    | _ => none

/-- Modelled from the spec: read all CSV rows; the fuel argument (the file
length suffices) only makes the recursion structural. -/
def csvReadRows : Nat → List Char → Option (List (String × Nat))
  | _, [] => some []
  | 0, _ => none
  | fuel + 1, c :: cs =>
    match csvReadRow (c :: cs) with
    | none => none
    | some (row, rest) => (csvReadRows fuel rest).map (row :: ·)

/-- Modelled from the spec: read a whole CSV file back into a ResultTable,
checking the header row first. -/
def readCsvFile (cs : List Char) : Option (List (String × Nat)) :=
  if csvHeader.isPrefixOf cs then
    csvReadRows cs.length (cs.drop csvHeader.length)
  else none

/-- Test fixture: every attempt is rate-limited. -/
def envAll403 : String → Nat → ReqOutcome := fun _ _ => .resp 403 (.fields none)

/-- Test fixture: three rate-limited attempts, then success with count 7
(the spec's own end-to-end retry scenario). -/
def envThree403 : String → Nat → ReqOutcome := fun _ i =>
  if i < 3 then .resp 403 (.fields none) else .resp 200 (.fields (some 7))

/-- Test fixture: a 201 response (non-200, non-403, but ok for the
`requests` library) carrying count 5. -/
def env201 : String → Nat → ReqOutcome := fun _ _ => .resp 201 (.fields (some 5))

/-- Test fixture: the spec's mocked two-dataset scenario, count 120 for
load_iris and 45 for load_wine. -/
def envScenario : String → ReqOutcome := fun d =>
  if d == "load_iris" then .resp 200 (.fields (some 120))
  else if d == "load_wine" then .resp 200 (.fields (some 45))
  else .resp 404 (.fields none)

/-- Test fixture: every response is 404 with no usable body. -/
def envAll404 : String → Nat → ReqOutcome := fun _ _ => .resp 404 (.fields none)

/-- Test fixture: immediate success with count 7. -/
def envOk7 : String → Nat → ReqOutcome := fun _ _ => .resp 200 (.fields (some 7))

/-- Test fixture: the two-dataset scenario for the R routine, ignoring the
attempt index. -/
def envScenarioB : String → Nat → ReqOutcome := fun d _ => envScenario d

/-- A rate-limited outcome is a response with status 403. -/
theorem is403_iff (o : ReqOutcome) :
    is403 o = true ↔ ∃ b, o = .resp 403 b := by
  cases o with
  | resp status body =>
    simp only [is403, beq_iff_eq]
    constructor
    · rintro rfl; exact ⟨body, rfl⟩
    · rintro ⟨b, hb⟩; cases hb; rfl
  | netErr => simp [is403]

/-- Status 403 is not ok. -/
theorem statusOk_403 : statusOk 403 = false := by decide

/-- Requests in a rate-limited trace segment. -/
theorem countRequests_rateLimitedTrace (d : String) (k : Nat) (tr : List Event) :
    countRequests (rateLimitedTrace d k ++ tr) = k + countRequests tr := by
  induction k with
  | zero => simp [rateLimitedTrace]
  | succ k ih =>
    simp only [rateLimitedTrace, List.cons_append, countRequests,
      List.countP_cons] at *
    simp [isHttpGet, ih]
    omega

/-- Sleeps in a rate-limited trace segment. -/
theorem countSleeps_rateLimitedTrace (d : String) (k : Nat) (tr : List Event) :
    countSleeps (rateLimitedTrace d k ++ tr) = k + countSleeps tr := by
  induction k with
  | zero => simp [rateLimitedTrace]
  | succ k ih =>
    simp only [rateLimitedTrace, List.cons_append, countSleeps,
      List.countP_cons] at *
    simp [isSleep, ih]
    omega

/-- A `k`-long run of 403 responses peels off the retry loop as `k`
request/print/sleep rounds followed by the loop restarted `k` attempts
later with `k` less fuel. -/
theorem retry403_prefix (d : String) (env : Nat → ReqOutcome) (k : Nat) :
    ∀ fuel a, (∀ i, a ≤ i → i < a + k → is403 (env i) = true) →
    a + k ≤ max_attempts → k ≤ fuel →
    retryLoopAux d env fuel a =
      ((retryLoopAux d env (fuel - k) (a + k)).1,
       rateLimitedTrace d k ++ (retryLoopAux d env (fuel - k) (a + k)).2) := by
  induction k with
  | zero =>
    intro fuel a _ _ _
    simp [rateLimitedTrace]
  | succ k ih =>
    intro fuel a h403 hcap hfuel
    obtain ⟨f, rfl⟩ : ∃ f, fuel = f + 1 := ⟨fuel - 1, by omega⟩
    have ha : a < max_attempts := by
      simp only [max_attempts] at *; omega
    obtain ⟨b, hb⟩ : ∃ b, env a = .resp 403 b :=
      (is403_iff (env a)).1 (h403 a (Nat.le_refl a) (by omega))
    have hstep : retryLoopAux d env (f + 1) a =
        ((retryLoopAux d env f (a + 1)).1,
         .httpGet d (rQuery d) :: .logRateLimited d :: .sleep 60 ::
           (retryLoopAux d env f (a + 1)).2) := by
      simp [retryLoopAux, ha, hb, statusOk_403]
    have ih2 := ih f (a + 1) (fun i h1 h2 => h403 i (by omega) (by omega))
      (by omega) (by omega)
    rw [hstep, ih2]
    have h1 : a + (k + 1) = a + 1 + k := by omega
    have h2 : f + 1 - (k + 1) = f - k := by omega
    rw [h1, h2]
    simp [rateLimitedTrace]

/-- Ten straight 403 responses exhaust the retry loop: no result, and the
trace is ten request/print/sleep rounds. -/
theorem retry403_exhaust (d : String) (env : Nat → ReqOutcome)
    (h403 : ∀ i, i < max_attempts → is403 (env i) = true) :
    retryLoop d env = (none, rateLimitedTrace d max_attempts) := by
  have h := retry403_prefix d env max_attempts max_attempts 0
    (fun i h1 h2 => h403 i (by omega)) (by omega) (by omega)
  simp only [Nat.sub_self, Nat.zero_add] at h
  rw [retryLoop, h]
  simp [retryLoopAux]

/-- With `N < 10` straight 403 responses and then an ok response with a
parsed JSON body, the retry loop succeeds with that body's count, after `N`
rate-limit rounds and one final request. -/
theorem retry403_success (d : String) (env : Nat → ReqOutcome) (N : Nat)
    (status : Nat) (tc : Option Nat)
    (h403 : ∀ i, i < N → is403 (env i) = true) (hN : N < max_attempts)
    (henv : env N = .resp status (.fields tc)) (hok : statusOk status = true) :
    retryLoop d env =
      (some (tc.getD 0),
       rateLimitedTrace d N ++
         [.httpGet d (rQuery d), .logCount d (tc.getD 0)]) := by
  have h := retry403_prefix d env N max_attempts 0
    (fun i h1 h2 => h403 i (by omega)) (by omega) (by omega)
  obtain ⟨m, hm⟩ : ∃ m, max_attempts - N = m + 1 := ⟨max_attempts - N - 1, by omega⟩
  simp only [Nat.zero_add] at h
  rw [retryLoop, h, hm]
  simp [retryLoopAux, hN, henv, hok]

/-- A first response that is neither ok nor 403 ends the retry loop at
once: `raise_for_status` raises, the handler prints and breaks. -/
theorem retry_hardFail (d : String) (env : Nat → ReqOutcome)
    (status : Nat) (body : JsonBody) (henv : env 0 = .resp status body)
    (hok : statusOk status = false) (h403 : status ≠ 403) :
    retryLoop d env =
      (none, [.httpGet d (rQuery d), .logReqError d]) := by
  have h4 : (status == 403) = false := by simp [h403]
  rw [retryLoop]
  obtain ⟨m, hm⟩ : ∃ m, max_attempts = m + 1 := ⟨max_attempts - 1, by decide⟩
  rw [hm]
  simp [retryLoopAux, henv, hok, h4]
  decide

/-- Every request event in the retry loop's trace is for the loop's own
dataset and its query. -/
theorem retryLoopAux_httpGet (d : String) (env : Nat → ReqOutcome) :
    ∀ fuel a dx q, Event.httpGet dx q ∈ (retryLoopAux d env fuel a).2 →
    dx = d ∧ q = rQuery d := by
  intro fuel
  induction fuel with
  | zero => intro a dx q h; simp [retryLoopAux] at h
  | succ fuel ih =>
    intro a dx q h
    by_cases ha : a < max_attempts
    · simp only [retryLoopAux, if_pos ha] at h
      cases henv : env a with
      | netErr =>
        rw [henv] at h
        simp at h
        exact h
      | resp status body =>
        rw [henv] at h
        by_cases hok : statusOk status = true
        · cases body with
          | malformed => simp [hok] at h; exact h
          | fields tc => simp [hok] at h; exact h
        · by_cases h4 : (status == 403) = true
          · simp [hok, h4] at h
            rcases h with ⟨h1, h2⟩ | h
            · exact ⟨h1, h2⟩
            · exact ih (a + 1) dx q h
          · simp [hok, h4] at h
            exact h
    · simp [retryLoopAux, ha] at h

/-- A completed sklearn run's table is exactly the per-dataset rows of the
input list, in input order. -/
theorem processSklearn_fst (env : String → ReqOutcome) :
    ∀ l t, (processSklearn env l).1 = some t → t = l.filterMap (rowOfA env) := by
  intro l
  induction l with
  | nil =>
    intro t h
    simp [processSklearn] at h
    simp [h.symm]
  | cons dataset rest ih =>
    intro t h
    simp only [processSklearn] at h
    rw [List.filterMap_cons]
    cases henv : env dataset with
    | netErr => rw [henv] at h; simp at h
    | resp status body =>
      rw [henv] at h
      by_cases hok : statusOk status = true
      · cases body with
        | malformed => simp [hok] at h
        | fields tc =>
          simp only [hok, if_true] at h
          cases hr : (processSklearn env rest).1 with
          | none => simp [hr] at h
          | some t' =>
            simp [hr] at h
            rw [← h, ih t' hr]
            simp [rowOfA, henv, hok]
      · cases body with
        | malformed =>
          simp [hok] at h
          rw [ih t h]
          simp [rowOfA, henv, hok]
        | fields tc =>
          simp [hok] at h
          rw [ih t h]
          simp [rowOfA, henv, hok]

/-- When every outcome is benign (a response whose body parses if the
status is ok), the sklearn routine completes, with exactly the per-dataset
rows. -/
theorem processSklearn_complete (env : String → ReqOutcome) :
    ∀ l, (∀ d ∈ l, benignA (env d) = true) →
    (processSklearn env l).1 = some (l.filterMap (rowOfA env)) := by
  intro l
  induction l with
  | nil => intro _; simp [processSklearn]
  | cons dataset rest ih =>
    intro hb
    have hbd : benignA (env dataset) = true := hb dataset (by simp)
    have hbr : ∀ d ∈ rest, benignA (env d) = true :=
      fun d hd => hb d (by simp [hd])
    rw [List.filterMap_cons]
    simp only [processSklearn]
    cases henv : env dataset with
    | netErr => rw [henv] at hbd; simp [benignA] at hbd
    | resp status body =>
      rw [henv] at hbd
      by_cases hok : statusOk status = true
      · cases body with
        | malformed => simp [benignA, hok] at hbd
        | fields tc =>
          simp [hok, ih hbr, rowOfA, henv]
      · cases body with
        | malformed => simp [hok, ih hbr, rowOfA, henv]
        | fields tc => simp [hok, ih hbr, rowOfA, henv]

/-- The R routine's table is exactly the per-dataset rows of the input
list, in input order. -/
theorem processR_fst (envOf : String → Nat → ReqOutcome) :
    ∀ l, (processR envOf l).1 = l.filterMap (rowOfB envOf) := by
  intro l
  induction l with
  | nil => simp [processR]
  | cons dataset rest ih =>
    rw [List.filterMap_cons]
    simp only [processR]
    by_cases hf : containsSpaceOrDot dataset = true
    · simp [hf, ih, rowOfB]
    · cases hr : (retryLoop dataset (envOf dataset)).1 with
      | none => simp [hf, hr, ih, rowOfB]
      | some c => simp [hf, hr, ih, rowOfB]

/-- Every request event in the R routine's trace belongs to an unfiltered
dataset of the input list. -/
theorem processR_httpGet (envOf : String → Nat → ReqOutcome) :
    ∀ l dx q, Event.httpGet dx q ∈ (processR envOf l).2 →
    dx ∈ l ∧ containsSpaceOrDot dx = false := by
  intro l
  induction l with
  | nil => intro dx q h; simp [processR] at h
  | cons dataset rest ih =>
    intro dx q h
    simp only [processR] at h
    by_cases hf : containsSpaceOrDot dataset = true
    · rw [if_pos hf] at h
      have := ih dx q h
      exact ⟨by simp [this.1], this.2⟩
    · rw [if_neg hf] at h
      cases hr : (retryLoop dataset (envOf dataset)).1 with
      | some c =>
        simp only [hr] at h
        rcases List.mem_append.1 h with h1 | h2
        · have := retryLoopAux_httpGet dataset (envOf dataset) _ _ dx q h1
          refine ⟨by simp [this.1], ?_⟩
          rw [this.1]
          exact Bool.eq_false_iff.2 hf
        · have := ih dx q h2
          exact ⟨by simp [this.1], this.2⟩
      | none =>
        simp only [hr] at h
        rcases List.mem_append.1 h with h1 | h2
        · have := retryLoopAux_httpGet dataset (envOf dataset) _ _ dx q h1
          refine ⟨by simp [this.1], ?_⟩
          rw [this.1]
          exact Bool.eq_false_iff.2 hf
        · rcases List.mem_cons.1 h2 with h3 | h4
          · cases h3
          · have := ih dx q h4
            exact ⟨by simp [this.1], this.2⟩

/-- Length of a `filterMap` as a count of the elements it keeps. -/
theorem length_filterMap_eq_countP {α β : Type} (f : α → Option β) :
    ∀ l : List α, (l.filterMap f).length = l.countP (fun a => (f a).isSome) := by
  intro l
  induction l with
  | nil => simp
  | cons a rest ih =>
    rw [List.filterMap_cons, List.countP_cons]
    cases hf : f a with
    | none => simp [hf, ih]
    | some b => simp [hf, ih]

/-- A sklearn row carries the dataset it was produced for. -/
theorem rowOfA_name (env : String → ReqOutcome) (a : String)
    (p : String × Nat) (h : rowOfA env a = some p) : p.1 = a := by
  unfold rowOfA at h
  cases henv : env a with
  | netErr => rw [henv] at h; simp at h
  | resp status body =>
    rw [henv] at h
    cases body with
    | malformed => simp at h
    | fields tc =>
      by_cases hok : statusOk status = true
      · simp [hok] at h; rw [← h]
      · simp [hok] at h

/-- An R row carries the dataset it was produced for. -/
theorem rowOfB_name (envOf : String → Nat → ReqOutcome) (a : String)
    (p : String × Nat) (h : rowOfB envOf a = some p) : p.1 = a := by
  unfold rowOfB at h
  by_cases hf : containsSpaceOrDot a = true
  · simp [hf] at h
  · simp [hf] at h
    obtain ⟨c, _, hc⟩ := h
    rw [← hc]

/-- In a completed sklearn run, each dataset is requested exactly once per
occurrence in the input list: no retry ever happens. -/
theorem processSklearn_requests (env : String → ReqOutcome) (d : String) :
    ∀ l t, (processSklearn env l).1 = some t →
    (processSklearn env l).2.countP (isRequestFor d) = l.count d := by
  intro l
  induction l with
  | nil => intro t _; simp [processSklearn]
  | cons dataset rest ih =>
    intro t h
    simp only [processSklearn] at h ⊢
    cases henv : env dataset with
    | netErr => rw [henv] at h; simp at h
    | resp status body =>
      rw [henv] at h
      by_cases hok : statusOk status = true
      · cases body with
        | malformed => simp [hok] at h
        | fields tc =>
          simp only [hok, if_true] at h ⊢
          cases hr : (processSklearn env rest).1 with
          | none => simp [hr] at h
          | some t' =>
            rw [List.countP_cons, List.countP_cons, List.count_cons,
              ih t' hr]
            simp [isRequestFor]
      · cases body with
        | malformed =>
          simp only [hok, Bool.false_eq_true, if_false] at h ⊢
          rw [List.countP_cons, List.countP_cons, List.count_cons, ih t h]
          simp [isRequestFor]
        | fields tc =>
          simp only [hok, Bool.false_eq_true, if_false] at h ⊢
          rw [List.countP_cons, List.countP_cons, List.count_cons, ih t h]
          simp [isRequestFor]

/-- In a completed sklearn run, every dataset that got a non-ok status had
its failure printed. -/
theorem processSklearn_logFailure (env : String → ReqOutcome) :
    ∀ l t d status body, (processSklearn env l).1 = some t → d ∈ l →
    env d = .resp status body → statusOk status = false →
    Event.logHttpFailure d status ∈ (processSklearn env l).2 := by
  intro l
  induction l with
  | nil => intro t d status body _ hd; simp at hd
  | cons dataset rest ih =>
    intro t d status body h hd henvd hok
    simp only [processSklearn] at h ⊢
    rcases List.mem_cons.1 hd with rfl | hdr
    · rw [henvd] at h ⊢
      simp [hok]
    · cases henv : env dataset with
      | netErr => rw [henv] at h; simp at h
      | resp status2 body2 =>
        rw [henv] at h
        by_cases hok2 : statusOk status2 = true
        · cases body2 with
          | malformed => simp [hok2] at h
          | fields tc =>
            simp only [hok2, if_true] at h ⊢
            cases hr : (processSklearn env rest).1 with
            | none => simp [hr] at h
            | some t' =>
              have := ih t' d status body hr hdr henvd hok
              simp [this]
        · cases body2 with
          | malformed =>
            simp only [hok2, Bool.false_eq_true, if_false] at h ⊢
            have := ih t d status body h hdr henvd hok
            simp [this]
          | fields tc =>
            simp only [hok2, Bool.false_eq_true, if_false] at h ⊢
            have := ih t d status body h hdr henvd hok
            simp [this]

/-- A nonempty rate-limited trace ends with its sleep. -/
theorem rateLimitedTrace_getLast (d : String) :
    ∀ k, 0 < k → (rateLimitedTrace d k).getLast? = some (.sleep 60) := by
  intro k
  induction k with
  | zero => intro h; omega
  | succ k ih =>
    intro _
    cases hk : k with
    | zero => simp [rateLimitedTrace]
    | succ k2 =>
      rw [rateLimitedTrace, List.getLast?_cons_cons, List.getLast?_cons_cons]
      have h2 : (rateLimitedTrace d k).getLast? = some (.sleep 60) :=
        ih (by omega)
      rw [hk] at h2
      rw [rateLimitedTrace] at h2 ⊢
      rw [List.getLast?_cons_cons] at h2 ⊢
      exact h2

/-- A list is a prefix (in the Boolean sense) of itself followed by
anything. -/
theorem isPrefixOf_append_self (l t : List Char) :
    l.isPrefixOf (l ++ t) = true := by
  induction l with
  | nil => simp [List.isPrefixOf]
  | cons c l ih => simp [List.isPrefixOf, ih]

/-- Round trip of one decimal digit. -/
theorem charDigit_digitChar (d : Nat) (hd : d < 10) :
    charDigit (digitChar d) = some d := by
  interval_cases d <;> decide

/-- Every character a count renders to is a decimal digit. -/
theorem natDigits_digits :
    ∀ n, ∀ c ∈ natDigits n, (charDigit c).isSome = true := by
  intro n
  induction n using Nat.strong_induction_on with
  | _ n ih =>
    intro c hc
    rw [natDigits] at hc
    by_cases h : n < 10
    · simp [h] at hc
      rw [hc, charDigit_digitChar n h]
      rfl
    · simp [h] at hc
      rcases hc with hc | hc
      · exact ih (n / 10) (Nat.div_lt_self (by omega) (by decide)) c hc
      · rw [hc, charDigit_digitChar (n % 10) (Nat.mod_lt n (by decide))]
        rfl

/-- A rendered count is never the empty digit string. -/
theorem natDigits_ne_nil (n : Nat) : natDigits n ≠ [] := by
  rw [natDigits]
  by_cases h : n < 10 <;> simp [h]

/-- `digitsVal` consumes an appended digit run in two stages. -/
theorem digitsVal_append (xs ys : List Char) :
    ∀ acc, digitsVal (xs ++ ys) acc = digitsVal ys (digitsVal xs acc) := by
  induction xs with
  | nil => intro acc; rfl
  | cons c xs ih => intro acc; simp [digitsVal, ih]

/-- Value of a rendered count under any accumulator. -/
theorem digitsVal_natDigits :
    ∀ n acc, digitsVal (natDigits n) acc =
      acc * 10 ^ (natDigits n).length + n := by
  intro n
  induction n using Nat.strong_induction_on with
  | _ n ih =>
    intro acc
    rw [natDigits]
    by_cases h : n < 10
    · simp only [h, dif_pos]
      simp [digitsVal, charDigit_digitChar n h]
    · simp only [h, dif_neg, not_false_iff]
      rw [digitsVal_append,
        ih (n / 10) (Nat.div_lt_self (by omega) (by decide))]
      simp [digitsVal, charDigit_digitChar (n % 10) (Nat.mod_lt n (by decide))]
      rw [pow_succ, ← mul_assoc]
      omega

/-- The digit scanner stops exactly at the newline after a rendered
count. -/
theorem csvScanDigits_spec (rest : List Char) :
    ∀ ds, (∀ c ∈ ds, (charDigit c).isSome = true) →
    csvScanDigits (ds ++ '\n' :: rest) = (ds, '\n' :: rest) := by
  intro ds
  induction ds with
  | nil => intro _; simp [csvScanDigits, charDigit]
  | cons c ds ih =>
    intro h
    have hc : (charDigit c).isSome = true := h c (by simp)
    have hih := ih (fun c hc => h c (by simp [hc]))
    simp only [List.cons_append, csvScanDigits, hc, if_true,
      List.append_eq, hih]

/-- The unquoted-field scanner stops exactly at the separator when the
field has none. -/
theorem csvScanUnquoted_spec (rest : List Char) :
    ∀ s, (∀ c ∈ s, (c == ',') = false) →
    csvScanUnquoted (s ++ ',' :: rest) = (s, ',' :: rest) := by
  intro s
  induction s with
  | nil => intro _; simp [csvScanUnquoted]
  | cons c s ih =>
    intro h
    have hc : (c == ',') = false := h c (by simp)
    have hih := ih (fun c hc => h c (by simp [hc]))
    simp only [List.cons_append, csvScanUnquoted, hc,
      Bool.false_eq_true, if_false, List.append_eq, hih]

/-- The quoted-field scanner undoes the escaping up to the closing quote
(here followed by the separator). -/
theorem csvScanQuoted_spec (rest : List Char) :
    ∀ s, csvScanQuoted (csvEscape s ++ '"' :: ',' :: rest) =
      some (s, ',' :: rest) := by
  intro s
  induction s with
  | nil => simp [csvEscape, csvScanQuoted]
  | cons c s ih =>
    by_cases hc : c = '"'
    · subst hc
      simp only [csvEscape, if_pos rfl, List.cons_append]
      rw [csvScanQuoted.eq_def]
      simp [ih]
    · have hcb : (c == '"') = false := by simp [hc]
      simp only [csvEscape, hcb, if_false, List.cons_append]
      rw [csvScanQuoted.eq_def]
      simp [hcb, ih, hc]

/-- Dropping a leading copy of a list leaves the appended tail. -/
theorem drop_append_self (l t : List Char) : (l ++ t).drop l.length = t := by
  induction l with
  | nil => simp
  | cons c l ih => simp [ih]

/-- A field that needs no quoting contains no separator. -/
theorem needsQuoting_false_no_comma (s : List Char)
    (h : csvNeedsQuoting s = false) : ∀ c ∈ s, (c == ',') = false := by
  intro c hc
  have h2 := (List.any_eq_false.1 h) c hc
  simp only [Bool.or_eq_true, not_or, Bool.not_eq_true] at h2
  exact h2.1.1.1

/-- A field that needs no quoting contains no quote character. -/
theorem needsQuoting_false_no_quote (s : List Char)
    (h : csvNeedsQuoting s = false) : ∀ c ∈ s, (c == '"') = false := by
  intro c hc
  have h2 := (List.any_eq_false.1 h) c hc
  simp only [Bool.or_eq_true, not_or, Bool.not_eq_true] at h2
  exact h2.1.1.2

/-- Reading back a written CSV field recovers it, up to the separator. -/
theorem csvReadField_spec (s rest : List Char) :
    csvReadField (csvField s ++ ',' :: rest) = some (s, ',' :: rest) := by
  unfold csvField
  by_cases hq : csvNeedsQuoting s = true
  · rw [if_pos hq]
    have hassoc : ('"' :: (csvEscape s ++ ['"'])) ++ ',' :: rest =
        '"' :: (csvEscape s ++ '"' :: ',' :: rest) := by simp
    rw [hassoc]
    simp [csvReadField, csvScanQuoted_spec]
  · have hq2 : csvNeedsQuoting s = false := Bool.eq_false_iff.2 hq
    rw [if_neg hq]
    have hnc : ∀ c ∈ s, (c == ',') = false :=
      needsQuoting_false_no_comma s hq2
    cases s with
    | nil => simp [csvReadField, csvScanUnquoted]
    | cons c s2 =>
      have hcq : (c == '"') = false :=
        needsQuoting_false_no_quote _ hq2 c (by simp)
      have hscan := csvScanUnquoted_spec rest (c :: s2) hnc
      simp only [List.cons_append] at hscan ⊢
      simp [csvReadField, hcq, hscan]

/-- Reading back a written count recovers it, up to the newline. -/
theorem csvReadNat_spec (n : Nat) (rest : List Char) :
    csvReadNat (natDigits n ++ '\n' :: rest) = some (n, '\n' :: rest) := by
  unfold csvReadNat
  rw [csvScanDigits_spec rest (natDigits n) (natDigits_digits n)]
  have hne : (natDigits n).isEmpty = false := by
    cases h : natDigits n with
    | nil => exact absurd h (natDigits_ne_nil n)
    | cons c cs => rfl
  simp only [hne, Bool.false_eq_true, if_false]
  rw [digitsVal_natDigits n 0]
  simp

/-- Reading back a written CSV row recovers it, leaving the rest of the
file untouched. -/
theorem csvReadRow_spec (r : String × Nat) (rest : List Char) :
    csvReadRow (writeCsvRow r ++ rest) = some (r, rest) := by
  have hassoc : writeCsvRow r ++ rest =
      csvField r.1.data ++ ',' :: (natDigits r.2 ++ '\n' :: rest) := by
    simp [writeCsvRow]
  rw [hassoc]
  unfold csvReadRow
  rw [csvReadField_spec]
  simp only
  rw [csvReadNat_spec]
  simp only

/-- A written CSV row is never empty. -/
theorem writeCsvRow_ne_nil (r : String × Nat) : writeCsvRow r ≠ [] := by
  unfold writeCsvRow
  cases csvField r.1.data <;> simp

/-- Reading back all written rows recovers the table, with any fuel at
least the number of rows. -/
theorem csvReadRows_spec :
    ∀ t : List (String × Nat), ∀ fuel, t.length ≤ fuel →
    csvReadRows fuel ((t.map writeCsvRow).flatten) = some t := by
  intro t
  induction t with
  | nil => intro fuel _; cases fuel <;> simp [csvReadRows]
  | cons r t ih =>
    intro fuel hf
    obtain ⟨f, rfl⟩ : ∃ f, fuel = f + 1 :=
      ⟨fuel - 1, by simp at hf; omega⟩
    have hflat : ((r :: t).map writeCsvRow).flatten =
        writeCsvRow r ++ (t.map writeCsvRow).flatten := by simp
    rw [hflat]
    cases hw : writeCsvRow r with
    | nil => exact absurd hw (writeCsvRow_ne_nil r)
    | cons c cs =>
      rw [List.cons_append, csvReadRows, ← List.cons_append, ← hw,
        csvReadRow_spec]
      simp only
      rw [ih f (by simp at hf; omega)]
      rfl

/-- Each written row contributes at least one character to the file. -/
theorem length_flatten_rows (t : List (String × Nat)) :
    t.length ≤ ((t.map writeCsvRow).flatten).length := by
  induction t with
  | nil => simp
  | cons r t ih =>
    have hpos : 0 < (writeCsvRow r).length :=
      List.length_pos.2 (writeCsvRow_ne_nil r)
    simp only [List.map_cons, List.flatten_cons, List.length_append,
      List.length_cons]
    omega

/-- Full CSV round trip: reading back a written ResultTable file yields
the same rows in the same order. -/
theorem readCsv_writeCsv (t : List (String × Nat)) :
    readCsvFile (writeCsvFile t) = some t := by
  unfold readCsvFile writeCsvFile
  rw [isPrefixOf_append_self]
  simp only [if_true]
  rw [drop_append_self]
  apply csvReadRows_spec
  have h1 := length_flatten_rows t
  simp only [List.length_append]
  omega

/-- C1: in `query_r_datasets`, a simulated sequence of N consecutive 403
responses followed by an ok response (N < 10) makes the retry loop perform
exactly N+1 requests and N sleeps and succeed with the response's count;
ten consecutive 403 responses make it perform exactly 10 requests, succeed
at none, and the identifier gets no row in any run's output table. -/
theorem claim1_retry_counts (envOf : String → Nat → ReqOutcome) (d : String)
    (N status : Nat) (tc : Option Nat) :
    ((∀ i, i < N → is403 (envOf d i) = true) → N < max_attempts →
      envOf d N = .resp status (.fields tc) → statusOk status = true →
      countRequests (retryLoop d (envOf d)).2 = N + 1 ∧
      countSleeps (retryLoop d (envOf d)).2 = N ∧
      (retryLoop d (envOf d)).1 = some (tc.getD 0)) ∧
    ((∀ i, i < max_attempts → is403 (envOf d i) = true) →
      countRequests (retryLoop d (envOf d)).2 = max_attempts ∧
      (retryLoop d (envOf d)).1 = none ∧
      ∀ l c, (d, c) ∉ (query_r_datasets envOf l).1) := by
  constructor
  · intro h403 hN henv hok
    rw [retry403_success d (envOf d) N status tc h403 hN henv hok]
    refine ⟨?_, ?_, rfl⟩
    · rw [countRequests_rateLimitedTrace]
      simp [countRequests, List.countP_cons, isHttpGet]
    · rw [countSleeps_rateLimitedTrace]
      simp [countSleeps, List.countP_cons, isSleep]
  · intro h403
    have hex := retry403_exhaust d (envOf d) h403
    have hnone : (retryLoop d (envOf d)).1 = none := by rw [hex]
    refine ⟨?_, hnone, ?_⟩
    · rw [hex]
      have := countRequests_rateLimitedTrace d max_attempts []
      simp only [List.append_nil] at this
      rw [this]
      simp [countRequests]
    · intro l c hmem
      have hq : (query_r_datasets envOf l).1 = (processR envOf l).1 := rfl
      rw [hq, processR_fst] at hmem
      obtain ⟨a, hal, ha⟩ := List.mem_filterMap.1 hmem
      have hname : ((d, c) : String × Nat).1 = a := rowOfB_name envOf a _ ha
      simp only at hname
      subst hname
      unfold rowOfB at ha
      by_cases hf : containsSpaceOrDot d = true
      · simp [hf] at ha
      · simp [hf, hnone] at ha

/-- C1 witness: the spec's retry scenario (three 403s then success with
count 7) gives 4 requests, 3 sleeps and the row's count; all-403 gives 10
requests, no result, and no row on input list ["iris"]. -/
theorem claim1_witness :
    (countRequests (retryLoop "iris" (envThree403 "iris")).2 = 4 ∧
     countSleeps (retryLoop "iris" (envThree403 "iris")).2 = 3 ∧
     (retryLoop "iris" (envThree403 "iris")).1 = some 7) ∧
    (countRequests (retryLoop "iris" (envAll403 "iris")).2 = 10 ∧
     (retryLoop "iris" (envAll403 "iris")).1 = none ∧
     ("iris", 0) ∉ (query_r_datasets envAll403 ["iris"]).1) := by
  have h1 := (claim1_retry_counts envThree403 "iris" 3 200 (some 7)).1
    (by intro i hi; simp [envThree403, hi, is403]) (by decide) (by decide)
    (by decide)
  have h2 := (claim1_retry_counts envAll403 "iris" 0 0 none).2
    (by intro i _; simp [envAll403, is403])
  exact ⟨h1, h2.1, h2.2.1, h2.2.2 ["iris"] 0⟩

/-- C7: with the access-token environment variable absent, the `__main__`
block only prints the missing-token error: no HTTP request is issued,
neither query routine runs, and no file (CSV or plot) is written. -/
theorem claim7_missing_token (envA : String → ReqOutcome)
    (envB : String → Nat → ReqOutcome) (l : List String) :
    mainEvents none envA envB l = [Event.logMissingToken] ∧
    Event.logMissingToken ∈ mainEvents none envA envB l ∧
    countRequests (mainEvents none envA envB l) = 0 ∧
    (∀ p, Event.writeFile p ∉ mainEvents none envA envB l) := by
  refine ⟨rfl, by simp [mainEvents], by simp [mainEvents, countRequests,
    isHttpGet], ?_⟩
  intro p hp
  simp [mainEvents] at hp

/-- C9: writing any ResultTable to CSV storage and reading it back yields
the identical ordered sequence of (name, count) pairs. -/
theorem claim9_roundtrip (t : List (String × Nat)) :
    readCsvFile (writeCsvFile t) = some t :=
  readCsv_writeCsv t

/-- C10: ten consecutive 403 responses make the retry loop sleep after
every one of its 10 requests — 10 sleeps for 10 requests, the trace even
ends with the final 60-second sleep, after which the identifier is
abandoned with no result. -/
theorem claim10_final_sleep (env : Nat → ReqOutcome) (d : String)
    (h403 : ∀ i, i < max_attempts → is403 (env i) = true) :
    countSleeps (retryLoop d env).2 = 10 ∧
    countRequests (retryLoop d env).2 = 10 ∧
    (retryLoop d env).2.getLast? = some (.sleep 60) ∧
    (retryLoop d env).1 = none := by
  have hex := retry403_exhaust d env h403
  rw [hex]
  have hr := countRequests_rateLimitedTrace d max_attempts []
  have hs := countSleeps_rateLimitedTrace d max_attempts []
  simp only [List.append_nil] at hr hs
  refine ⟨?_, ?_, ?_, rfl⟩
  · rw [hs]; simp [countSleeps, max_attempts]
  · rw [hr]; simp [countRequests, max_attempts]
  · exact rateLimitedTrace_getLast d max_attempts (by decide)

/-- C10 witness: the all-403 fixture realizes the 10-sleep trace. -/
theorem claim10_witness :
    countSleeps (retryLoop "iris" (envAll403 "iris")).2 = 10 ∧
    countRequests (retryLoop "iris" (envAll403 "iris")).2 = 10 ∧
    (retryLoop "iris" (envAll403 "iris")).2.getLast? =
      some (.sleep 60) ∧
    (retryLoop "iris" (envAll403 "iris")).1 = none :=
  claim10_final_sleep (envAll403 "iris") "iris"
    (by intro i _; simp [envAll403, is403])

/-- C2 counterexample: a first response with status 201 — non-200 and
non-403 — is `ok` for the `requests` library, so `query_r_datasets` records
a row for the identifier instead of skipping it: on input ["iris"] with
every response `201` carrying count 5, the output table contains
("iris", 5). -/
theorem claim2_counterexample :
    env201 "iris" 0 = .resp 201 (.fields (some 5)) ∧
    201 ≠ 200 ∧ 201 ≠ 403 ∧
    ("iris", 5) ∈ (query_r_datasets env201 ["iris"]).1 ∧
    countRequests (query_r_datasets env201 ["iris"]).2 = 1 := by
  refine ⟨rfl, by decide, by decide, by decide, by decide⟩

/-- C2 (amended): for every queried identifier (one not filtered out)
whose first response has a non-success status (400..599) other than 403,
exactly one request is made, no sleep occurs, the identifier contributes
no row to any run's output table, and processing continues with the next
identifier. -/
theorem claim2_amended (envOf : String → Nat → ReqOutcome) (d : String)
    (status : Nat) (body : JsonBody)
    (henv : envOf d 0 = .resp status body)
    (hok : statusOk status = false) (h403 : status ≠ 403) :
    countRequests (retryLoop d (envOf d)).2 = 1 ∧
    countSleeps (retryLoop d (envOf d)).2 = 0 ∧
    (∀ l c, (d, c) ∉ (query_r_datasets envOf l).1) ∧
    (∀ rest, containsSpaceOrDot d = false →
      (processR envOf (d :: rest)).1 = (processR envOf rest).1) := by
  have hfail := retry_hardFail d (envOf d) status body henv hok h403
  have hnone : (retryLoop d (envOf d)).1 = none := by rw [hfail]
  refine ⟨?_, ?_, ?_, ?_⟩
  · rw [hfail]; simp [countRequests, List.countP_cons, isHttpGet]
  · rw [hfail]; simp [countSleeps, List.countP_cons, isSleep]
  · intro l c hmem
    have hq : (query_r_datasets envOf l).1 = (processR envOf l).1 := rfl
    rw [hq, processR_fst] at hmem
    obtain ⟨a, hal, ha⟩ := List.mem_filterMap.1 hmem
    have hname : ((d, c) : String × Nat).1 = a := rowOfB_name envOf a _ ha
    simp only at hname
    subst hname
    unfold rowOfB at ha
    by_cases hf : containsSpaceOrDot d = true
    · simp [hf] at ha
    · simp [hf, hnone] at ha
  · intro rest hf
    simp [processR, hf, hnone]

/-- C2 witness: a first response with status 404 on "iris" gives one
request, no sleep, no row on input ["iris", "mtcars"], and the run
continues with "mtcars". -/
theorem claim2_witness :
    countRequests (retryLoop "iris" (envAll404 "iris")).2 = 1 ∧
    countSleeps (retryLoop "iris" (envAll404 "iris")).2 = 0 ∧
    ("iris", 0) ∉ (query_r_datasets envAll404 ["iris", "mtcars"]).1 ∧
    (processR envAll404 ["iris", "mtcars"]).1 =
      (processR envAll404 ["mtcars"]).1 := by
  have h := claim2_amended envAll404 "iris" 404 (.fields none) rfl
    (by decide) (by decide)
  exact ⟨h.1, h.2.1, h.2.2.1 ["iris", "mtcars"] 0, h.2.2.2 ["mtcars"] rfl⟩

/-- C3: in either routine, a successful response with a parsed JSON body
puts a row for the identifier in the output table, with count equal to the
body's total_count field, or 0 when the field is absent.  For the R
routine the success may come on any attempt N < 10, after N rate-limited
403 responses (N = 0 is an immediate success). -/
theorem claim3_success_rows :
    (∀ (env : String → ReqOutcome) (l : List String) (d : String)
        (status : Nat) (tc : Option Nat) (t : List (String × Nat)),
      d ∈ l → env d = .resp status (.fields tc) → statusOk status = true →
      (processSklearn env l).1 = some t → (d, tc.getD 0) ∈ t) ∧
    (∀ (envOf : String → Nat → ReqOutcome) (l : List String) (d : String)
        (N status : Nat) (tc : Option Nat),
      d ∈ l → containsSpaceOrDot d = false →
      (∀ i, i < N → is403 (envOf d i) = true) → N < max_attempts →
      envOf d N = .resp status (.fields tc) → statusOk status = true →
      (d, tc.getD 0) ∈ (query_r_datasets envOf l).1) := by
  constructor
  · intro env l d status tc t hd henv hok ht
    rw [processSklearn_fst env l t ht]
    exact List.mem_filterMap.2 ⟨d, hd, by simp [rowOfA, henv, hok]⟩
  · intro envOf l d N status tc hd hf h403 hN henv hok
    have hsucc := retry403_success d (envOf d) N status tc h403 hN henv hok
    have hres : (retryLoop d (envOf d)).1 = some (tc.getD 0) := by
      rw [hsucc]
    have hq : (query_r_datasets envOf l).1 = (processR envOf l).1 := rfl
    rw [hq, processR_fst]
    refine List.mem_filterMap.2 ⟨d, hd, ?_⟩
    unfold rowOfB
    simp [hf, hres]

/-- C3 witness: in the mocked scenario, load_iris gets row count 120 in
the sklearn table, and iris gets row count 7 in the R table after three
403 retries (the spec's ecosystem-B scenario). -/
theorem claim3_witness :
    ("load_iris", 120) ∈ [("load_iris", 120), ("load_wine", 45)] ∧
    ("iris", 7) ∈ (query_r_datasets envThree403 ["iris"]).1 := by
  constructor
  · exact claim3_success_rows.1 envScenario ["load_iris", "load_wine"]
      "load_iris" 200 (some 120) [("load_iris", 120), ("load_wine", 45)]
      (by decide) (by decide) (by decide) (by decide)
  · exact claim3_success_rows.2 envThree403 ["iris"] "iris" 3 200 (some 7)
      (by decide) (by decide)
      (by intro i hi; simp [envThree403, hi, is403]) (by decide) (by decide)
      (by decide)

/-- C4: an identifier containing a space or a period is filtered out
before querying: it gets no row in the output table and no HTTP request
in the whole run's trace. -/
theorem claim4_filtered_identifiers (envOf : String → Nat → ReqOutcome)
    (l : List String) (d : String) (_hm : d ∈ l)
    (hf : containsSpaceOrDot d = true) :
    (∀ c, (d, c) ∉ (query_r_datasets envOf l).1) ∧
    (∀ q, Event.httpGet d q ∉ (query_r_datasets envOf l).2) := by
  constructor
  · intro c hmem
    have hq : (query_r_datasets envOf l).1 = (processR envOf l).1 := rfl
    rw [hq, processR_fst] at hmem
    obtain ⟨a, hal, ha⟩ := List.mem_filterMap.1 hmem
    have hname : ((d, c) : String × Nat).1 = a := rowOfB_name envOf a _ ha
    simp only at hname
    subst hname
    unfold rowOfB at ha
    simp [hf] at ha
  · intro q hmem
    have hq : (query_r_datasets envOf l).2 =
        (processR envOf l).2 ++ [.writeFile "r_datasets_counts.csv"] := rfl
    rw [hq] at hmem
    rcases List.mem_append.1 hmem with h1 | h2
    · have := processR_httpGet envOf l d q h1
      rw [hf] at this
      exact absurd this.2 (by simp)
    · simp at h2

/-- C4 witness: "air quality" (a name with a space) gets no row and no
request even when every response would succeed. -/
theorem claim4_witness :
    ("air quality", 5) ∉ (query_r_datasets env201 ["air quality"]).1 ∧
    Event.httpGet "air quality" (rQuery "air quality") ∉
      (query_r_datasets env201 ["air quality"]).2 := by
  have h := claim4_filtered_identifiers env201 ["air quality"] "air quality"
    (by decide) (by decide)
  exact ⟨h.1 5, h.2 (rQuery "air quality")⟩

/-- Shared shape facts for a table built by `filterMap` of a per-dataset
row function that tags rows with their dataset. -/
theorem filterMap_row_facts (l : List String)
    (f : String → Option (String × Nat))
    (hf : ∀ a p, f a = some p → p.1 = a) :
    (l.filterMap f).length = l.countP (fun a => (f a).isSome) ∧
    (l.filterMap f).length ≤ l.length ∧
    ((l.filterMap f).length = l.length ↔ ∀ d ∈ l, (f d).isSome = true) ∧
    ∀ p ∈ l.filterMap f, p.1 ∈ l ∧ f p.1 = some p := by
  have hlen := length_filterMap_eq_countP f l
  refine ⟨hlen, ?_, ?_, ?_⟩
  · rw [hlen]; exact List.countP_le_length _
  · rw [hlen]; exact List.countP_eq_length
  · intro p hp
    obtain ⟨a, ha, heq⟩ := List.mem_filterMap.1 hp
    have hname := hf a p heq
    rw [hname]
    exact ⟨ha, heq⟩

/-- C5: for both routines, a (completed) run's table has at most one row
per input identifier — its length is the number of ultimately-successful
queries, so it equals the input length exactly when every input
identifier's query ultimately succeeds (for ecosystem B, a pre-filtered
name counts as an identifier whose query never succeeds, as no query is
even issued for it) — and every row is a well-formed (name, count) pair
produced by its own identifier's successful query. -/
theorem claim5_row_bounds :
    (∀ (env : String → ReqOutcome) (l : List String)
        (t : List (String × Nat)),
      (processSklearn env l).1 = some t →
      t.length = l.countP (succeedsA env) ∧
      t.length ≤ l.length ∧
      (t.length = l.length ↔ ∀ d ∈ l, succeedsA env d = true) ∧
      ∀ p ∈ t, p.1 ∈ l ∧ rowOfA env p.1 = some p) ∧
    (∀ (envOf : String → Nat → ReqOutcome) (l : List String),
      (query_r_datasets envOf l).1.length = l.countP (succeedsB envOf) ∧
      (query_r_datasets envOf l).1.length ≤ l.length ∧
      ((query_r_datasets envOf l).1.length = l.length ↔
        ∀ d ∈ l, succeedsB envOf d = true) ∧
      ∀ p ∈ (query_r_datasets envOf l).1,
        p.1 ∈ l ∧ rowOfB envOf p.1 = some p) := by
  constructor
  · intro env l t ht
    rw [processSklearn_fst env l t ht]
    have h := filterMap_row_facts l (rowOfA env) (rowOfA_name env)
    have hs : (fun a => (rowOfA env a).isSome) = succeedsA env := rfl
    rw [hs] at h
    exact h
  · intro envOf l
    have hq : (query_r_datasets envOf l).1 = (processR envOf l).1 := rfl
    rw [hq, processR_fst]
    have h := filterMap_row_facts l (rowOfB envOf) (rowOfB_name envOf)
    have hs : (fun a => (rowOfB envOf a).isSome) = succeedsB envOf := rfl
    rw [hs] at h
    exact h

/-- C5 witness: the mocked sklearn scenario run has 2 rows = its success
count, at most the 6 inputs; the one-identifier R run has 1 row. -/
theorem claim5_witness :
    ([("load_iris", 120), ("load_wine", 45)] : List (String × Nat)).length =
      sklearnDatasets.countP (succeedsA envScenario) ∧
    ([("load_iris", 120), ("load_wine", 45)] : List (String × Nat)).length ≤
      sklearnDatasets.length ∧
    (query_r_datasets envOk7 ["iris"]).1.length = 1 := by
  have hA := claim5_row_bounds.1 envScenario sklearnDatasets
    [("load_iris", 120), ("load_wine", 45)] (by decide)
  have hB := claim5_row_bounds.2 envOk7 ["iris"]
  refine ⟨hA.1, hA.2.1, ?_⟩
  rw [hB.1]
  decide

/-- C6: in `query_sklearn_datasets`, an identifier whose response has a
non-success status (400..599) has its failure printed and is skipped in
any completed run — no row, exactly one request per occurrence, no retry —
and such a status alone never aborts the routine: when every outcome is
benign (responses whose bodies parse when ok; a malformed body is the one
fatal parse error), the routine completes. -/
theorem claim6_sklearn_http_failure (env : String → ReqOutcome)
    (l : List String) (d : String) (status : Nat) (body : JsonBody)
    (hd : d ∈ l) (henv : env d = .resp status body)
    (hok : statusOk status = false) :
    (∀ t, (processSklearn env l).1 = some t →
      Event.logHttpFailure d status ∈ (processSklearn env l).2 ∧
      (∀ c, (d, c) ∉ t) ∧
      (processSklearn env l).2.countP (isRequestFor d) = l.count d) ∧
    ((∀ d2 ∈ l, benignA (env d2) = true) →
      (processSklearn env l).1.isSome = true) := by
  constructor
  · intro t ht
    refine ⟨processSklearn_logFailure env l t d status body ht hd henv hok,
      ?_, processSklearn_requests env d l t ht⟩
    intro c hmem
    rw [processSklearn_fst env l t ht] at hmem
    obtain ⟨a, hal, ha⟩ := List.mem_filterMap.1 hmem
    have hname : ((d, c) : String × Nat).1 = a := rowOfA_name env a _ ha
    simp only at hname
    subst hname
    unfold rowOfA at ha
    rw [henv] at ha
    cases body with
    | malformed => simp at ha
    | fields tc => simp [hok] at ha
  · intro hb
    rw [processSklearn_complete env l hb]
    rfl

/-- C6 witness: in the mocked scenario run, load_diabetes gets a 404 —
its failure is logged, it has no row, it is requested exactly once, and
the routine still completes. -/
theorem claim6_witness :
    Event.logHttpFailure "load_diabetes" 404 ∈
      (processSklearn envScenario sklearnDatasets).2 ∧
    ("load_diabetes", 0) ∉
      ([("load_iris", 120), ("load_wine", 45)] : List (String × Nat)) ∧
    (processSklearn envScenario sklearnDatasets).2.countP
      (isRequestFor "load_diabetes") = sklearnDatasets.count "load_diabetes" ∧
    (processSklearn envScenario sklearnDatasets).1.isSome = true := by
  have h := claim6_sklearn_http_failure envScenario sklearnDatasets
    "load_diabetes" 404 (.fields none) (by decide) (by decide) (by decide)
  have h1 := h.1 [("load_iris", 120), ("load_wine", 45)] (by decide)
  exact ⟨h1.1, h1.2.1 0, h1.2.2, h.2 (by decide)⟩

/-- C8: each routine's table rows appear in the input list's order (the
table is a `filterMap` of the canonical input list), and the mocked
two-identifier scenario produces exactly
[("load_iris", 120), ("load_wine", 45)] in both routines. -/
theorem claim8_order :
    (∀ (env : String → ReqOutcome) (l : List String)
        (t : List (String × Nat)),
      (processSklearn env l).1 = some t → t = l.filterMap (rowOfA env)) ∧
    (∀ (envOf : String → Nat → ReqOutcome) (l : List String),
      (query_r_datasets envOf l).1 = l.filterMap (rowOfB envOf)) ∧
    (processSklearn envScenario ["load_iris", "load_wine"]).1 =
      some [("load_iris", 120), ("load_wine", 45)] ∧
    (query_r_datasets envScenarioB ["load_iris", "load_wine"]).1 =
      [("load_iris", 120), ("load_wine", 45)] := by
  refine ⟨processSklearn_fst, ?_, by decide, by decide⟩
  intro envOf l
  have hq : (query_r_datasets envOf l).1 = (processR envOf l).1 := rfl
  rw [hq, processR_fst]

/-- C8 witness: the mocked scenario's table is the `filterMap` of its
input list. -/
theorem claim8_witness :
    ([("load_iris", 120), ("load_wine", 45)] : List (String × Nat)) =
      List.filterMap (rowOfA envScenario) ["load_iris", "load_wine"] :=
  claim8_order.1 envScenario ["load_iris", "load_wine"]
    [("load_iris", 120), ("load_wine", 45)] (by decide)
